import Mathlib

/-!
# Verification of the ToMoon backend control plane

Shallow embedding of `backend/src/control.rs` (the clash supervisor,
configuration transformer, rule-provider downloader and persistence loop)
together with proofs of the specified properties.

YAML documents are modelled by the inductive `Value` below, mirroring the
`serde_yaml::Value` cases the code manipulates; mappings are association
lists preserving insertion order, matching the order-preserving map backing
`serde_yaml::Mapping` (`insert` replaces the value in place when the key is
present and appends otherwise; `remove` deletes the first occurrence).
Every key the code looks up is a string literal, so the map operations take
a `String` key and compare it against `Value` keys (`Value::String(k) = key`).
Rust panics (`unwrap` on `None`/`Err`) are modelled by `Option`: a result of
`none` means the corresponding Rust execution panics.
-/

namespace ToMoon

/-- YAML value, restricted to the cases `control.rs` manipulates:
strings, booleans, sequences and mappings. -/
inductive Value where
  | vStr : String → Value
  | vBool : Bool → Value
  | vSeq : List Value → Value
  | vMap : List (Value × Value) → Value
  deriving Repr

/-- An in-memory YAML mapping: an ordered association list, as in
`serde_yaml::Mapping`. -/
abbrev Doc := List (Value × Value)

namespace Value

/-- Rust `Value::as_str`: `some s` exactly on strings. -/
def asStr : Value → Option String
  | vStr s => some s
  | _ => none

end Value

/-- Does the mapping key `k` equal the string key `s`
(i.e. `k == Value::String(s)`)? -/
def keyIs (k : Value) (s : String) : Bool :=
  match k with
  | Value.vStr t => t = s
  | _ => false

/-- Rust `Mapping::get`: the value bound to the first occurrence of the key. -/
def mapGet (d : Doc) (s : String) : Option Value :=
  match d with
  | [] => none
  | (k, v) :: rest => if keyIs k s then some v else mapGet rest s

/-- Rust `Mapping::insert`: replace the value at the first occurrence of the key
in place, or append the pair at the end when the key is absent. -/
def mapInsert (d : Doc) (s : String) (v : Value) : Doc :=
  match d with
  | [] => [(Value.vStr s, v)]
  | (k, v') :: rest =>
      if keyIs k s then (k, v) :: rest else (k, v') :: mapInsert rest s v

/-- Rust `Mapping::remove`: delete the first occurrence of the key. -/
def mapRemove (d : Doc) (s : String) : Doc :=
  match d with
  | [] => []
  | (k, v') :: rest => if keyIs k s then rest else (k, v') :: mapRemove rest s

/-- Rust `Value::get(key)` on an arbitrary value: a mapping lookup when the value
is a mapping, `none` otherwise (serde's indexing never panics here). -/
def vGet (v : Value) (s : String) : Option Value :=
  match v with
  | Value.vMap d => mapGet d s
  | _ => none

/-- Number of occurrences of the string key `s` among the keys of `d`. -/
def countKey (d : Doc) (s : String) : Nat :=
  d.countP (fun p => keyIs p.1 s)

/-- Rust `ClashErrorKind` from `control.rs`. -/
inductive ClashErrorKind where
  | CoreNotFound
  | ConfigFormatError
  | ConfigNotFound
  | RuleProviderDownloadError
  | NetworkError
  | Default
  deriving DecidableEq, Repr

/-- Rust `ClashError` from `control.rs`: a message together with a kind. -/
structure ClashError where
  Message : String
  ErrorKind : ClashErrorKind
  deriving DecidableEq, Repr

/-! ## Rule-Provider Downloader (`Clash::downlaod_proxy_providers`) -/

/-- Outcome of one `minreq::get(url).with_timeout(15).send()` call plus the
`response.as_str()` decode: either the transport fails (`send` returns
`Err`), the body is not decodable text (`as_str` returns `Err`), or the
fetch succeeds with a body. The network is a function from the URL. -/
inductive NetOutcome where
  | transportFail : String → NetOutcome
  | decodeFail : NetOutcome
  | success : String → NetOutcome

/-- Does `s` start with `p`? (List-level equivalent of `str::starts_with`,
kept structural so that concrete runs reduce.) -/
def strStarts (s p : String) : Bool :=
  p.data.isPrefixOf s.data

/-- Does `s` end with `p`? -/
def strEnds (s p : String) : Bool :=
  p.data.isSuffixOf s.data

/-- Drop the first `n` characters of `s`. -/
def strDrop (s : String) (n : Nat) : String :=
  ⟨s.data.drop n⟩

/-- The `^\./` regex replacement: strip one leading `./` if present. -/
def stripDotSlash (p : String) : String :=
  if strStarts p "./" then strDrop p 2 else p

/-- Rust `PathBuf::join`: an absolute argument replaces the base path entirely;
a relative argument is appended (with a separator unless the base already
ends with one). -/
def pathJoin (base p : String) : String :=
  if strStarts p "/" then p
  else if strEnds base "/" then base ++ p
  else base ++ "/" ++ p

/-- The on-disk location a provider `path` field is saved to:
`PathBuf::from("/root/.config/clash/").join(path with one leading "./"
stripped)`. -/
def providerSavePath (p : String) : String :=
  pathJoin "/root/.config/clash/" (stripDotSlash p)

/-- Rust `Clash::downlaod_proxy_providers`: iterate over the entries of the
`rule-providers` mapping; entries missing `url` or `path` are skipped; for
the others the URL is fetched and the body saved under `providerSavePath`.
`some (Except.ok writes)` lists the `(save path, body)` file writes in
order; `some (Except.error e)` is the first-failure early return; `none`
models a panic (`url.as_str().unwrap()` or `path.as_str().unwrap()` on a
non-string field). Directory creation and the final `fs::write` are
modelled as succeeding (their failure paths also return a
`RuleProviderDownloadError`). -/
def downloadProviders (entries : Doc) (net : String → NetOutcome) :
    Option (Except ClashError (List (String × String))) :=
  match entries with
  | [] => some (Except.ok [])
  | (_, v) :: rest =>
      match vGet v "url", vGet v "path" with
      | some u, some p =>
          match u.asStr with
          | none => none
          | some us =>
              match net us with
              | NetOutcome.transportFail msg =>
                  some (Except.error
                    { Message :=
                        "Error occurred while downloading Rule Provder with error message : "
                          ++ msg,
                      ErrorKind := ClashErrorKind.RuleProviderDownloadError })
              | NetOutcome.decodeFail =>
                  some (Except.error
                    { Message := "Error occurred while parase Rule Provder.",
                      ErrorKind := ClashErrorKind.RuleProviderDownloadError })
              | NetOutcome.success body =>
                  match p.asStr with
                  | none => none
                  | some ps =>
                      match downloadProviders rest net with
                      | some (Except.ok writes) =>
                          some (Except.ok ((providerSavePath ps, body) :: writes))
                      | some (Except.error e) => some (Except.error e)
                      | none => none
      | _, _ => downloadProviders rest net

/-! ## Config Transformer (`Clash::change_config`) -/

/-- The parsed `tun_config` literal from `control.rs`. -/
def tunLit : Value :=
  Value.vMap
    [(Value.vStr "enable", Value.vBool true),
     (Value.vStr "stack", Value.vStr "system"),
     (Value.vStr "auto-route", Value.vBool true),
     (Value.vStr "auto-detect-interface", Value.vBool true)]

/-- The parsed `dns_config` literal from `control.rs`. -/
def dnsLit : Value :=
  Value.vMap
    [(Value.vStr "enable", Value.vBool true),
     (Value.vStr "listen", Value.vStr "0.0.0.0:53"),
     (Value.vStr "enhanced-mode", Value.vStr "fake-ip"),
     (Value.vStr "fake-ip-range", Value.vStr "198.18.0.1/16"),
     (Value.vStr "nameserver", Value.vSeq [Value.vStr "tcp://127.0.0.1:5353"])]

/-- The parsed `profile_config` literal from `control.rs`. -/
def profileLit : Value :=
  Value.vMap
    [(Value.vStr "store-selected", Value.vBool true),
     (Value.vStr "store-fake-ip", Value.vBool false)]

/-- The connectivity-bypass rule inserted at the head of `rules`. -/
def bypassRule : Value := Value.vStr "DOMAIN,test.steampowered.com,DIRECT"

/-- The `insert_config` closure specialised to the three recommended
blocks, together with the surrounding `match yaml.get(key)`: if the key is
present it is first removed, then the literal block is inserted; if absent
the literal block is inserted directly. -/
def setBlock (d : Doc) (s : String) (lit : Value) : Doc :=
  match mapGet d s with
  | some _ => mapInsert (mapRemove d s) s lit
  | none => mapInsert d s lit

/-- Step 1 of `change_config`: overwrite-or-insert the
`external-controller` listener address. -/
def setController (d : Doc) : Doc :=
  mapInsert d "external-controller" (Value.vStr "127.0.0.1:9090")

/-- Step 2 of `change_config`: if a `rules` key exists, insert the bypass
rule at index 0 of its sequence; `none` models the panic of
`as_sequence_mut().unwrap()` when the `rules` value is not a sequence. -/
def insertBypassRule (d : Doc) : Option Doc :=
  match mapGet d "rules" with
  | none => some d
  | some (Value.vSeq l) => some (mapInsert d "rules" (Value.vSeq (bypassRule :: l)))
  | some _ => none

/-- Step 3 of `change_config`: if a `rule-providers` key exists, run the
downloader over its mapping; `none` models the panic of
`as_mapping().unwrap()` when the value is not a mapping. -/
def runProviders (d : Doc) (net : String → NetOutcome) :
    Option (Except ClashError Unit) :=
  match mapGet d "rule-providers" with
  | none => some (Except.ok ())
  | some (Value.vMap m) =>
      match downloadProviders m net with
      | none => none
      | some (Except.ok _) => some (Except.ok ())
      | some (Except.error e) => some (Except.error e)
  | some _ => none

/-- Step 4 of `change_config`: overwrite-or-insert the `external-ui`
directory, derived from the current working directory. -/
def setExternalUi (d : Doc) (cwd : String) : Doc :=
  mapInsert d "external-ui" (Value.vStr (pathJoin cwd "bin/core/web"))

/-- Steps 4–5 of `change_config`: set `external-ui`, then replace-not-merge
the `tun`, `dns` and `profile` blocks with the recommended literals. -/
def finishDoc (d : Doc) (cwd : String) : Doc :=
  setBlock (setBlock (setBlock (setExternalUi d cwd) "tun" tunLit) "dns" dnsLit)
    "profile" profileLit

/-- Rust `Clash::change_config`, starting from the parsed base document `root`
(reading and parsing the file happen in the caller's model). The result is
`some (Except.ok out)` when the transformation succeeds, in which case
`out` is the document serialized and written to
`bin/core/running_config.yaml`; `some (Except.error e)` when the
rule-provider download fails (nothing is written); `none` when the Rust
code panics (`as_mapping_mut().unwrap()` on a non-mapping root, or a panic
inside steps 2–3). Serialization and the final `fs::write` are modelled as
succeeding. -/
def changeConfig (root : Value) (net : String → NetOutcome) (cwd : String) :
    Option (Except ClashError Doc) :=
  match root with
  | Value.vMap d0 =>
      match insertBypassRule (setController d0) with
      | none => none
      | some d2 =>
          match runProviders d2 net with
          | none => none
          | some (Except.error e) => some (Except.error e)
          | some (Except.ok _) => some (Except.ok (finishDoc d2 cwd))
  | _ => none

/-- The content written to the running-config file by a `change_config`
call: the transformed document on success, nothing on error or panic (the
write is the last step, after every early return). -/
def writtenConfig (r : Option (Except ClashError Doc)) : Option Doc :=
  match r with
  | some (Except.ok d) => some d
  | _ => none

/-! ## Process Supervisor (`Clash`) -/

/-- The `std::process::Child` handle, tracking what the supervisor did to
the process: whether `kill()` and `wait()` have been called on it. -/
structure Child where
  killed : Bool
  waited : Bool
  deriving DecidableEq, Repr

/-- The `Clash` supervisor struct: executable path, config path, and the
optional process handle (`instence`, spelled as in the source). -/
structure ClashS where
  path : String
  config : String
  instence : Option Child
  deriving DecidableEq, Repr

/-- Rust `Clash::update_config_path`: replace the stored config path. -/
def updateConfigPath (c : ClashS) (p : String) : ClashS :=
  { c with config := p }

/-- Rust `Clash::stop`: when a handle is present, kill it, wait for exit, then
restore DNS (run `chattr -i /etc/resolv.conf` and copy the backup file
back); the second component lists the external commands/file operations
performed. When no handle is present, do nothing. The `instence` field
itself is never reassigned by `stop`. -/
def clashStop (c : ClashS) : ClashS × List String :=
  match c.instence with
  | none => (c, [])
  | some h =>
      ({ c with instence := some { h with killed := true, waited := true } },
       ["chattr -i /etc/resolv.conf",
        "copy ./resolv.conf.bk /etc/resolv.conf"])

/-- Debug rendering of a `ClashErrorKind`, as `{:?}` prints it. -/
def kindStr : ClashErrorKind → String
  | ClashErrorKind.CoreNotFound => "CoreNotFound"
  | ClashErrorKind.ConfigFormatError => "ConfigFormatError"
  | ClashErrorKind.ConfigNotFound => "ConfigNotFound"
  | ClashErrorKind.RuleProviderDownloadError => "RuleProviderDownloadError"
  | ClashErrorKind.NetworkError => "NetworkError"
  | ClashErrorKind.Default => "Default"

/-- The `Display` impl of `ClashError`. -/
def clashErrorStr (e : ClashError) : String :=
  "Error Kind: " ++ kindStr e.ErrorKind ++ ", Error Message: " ++ e.Message ++ ")"

/-- Rust `Clash::run(config_path)`. `docs` models `fs::read_to_string` plus the
YAML parse of the file at a path (an `Except.error` is the io/parse error
message, which `change_config` propagates); `spawnOk` models whether
`Command::spawn` succeeds; `netRes` models `helper::set_system_network()`.
The steps, in source order: store the new config path, run the transformer
(failure wrapped as `ConfigFormatError`), spawn the process (failure
collapsed to a `Default`-kind error with an empty message), store the
handle, then apply system network settings (failure returned as
`NetworkError` with the process left running). `none` models a panic
inside `change_config`. -/
def clashRun (c : ClashS) (newCfg : String) (docs : String → Except String Value)
    (net : String → NetOutcome) (cwd : String) (spawnOk : Bool)
    (netRes : Except String Unit) :
    Option (ClashS × Except ClashError Unit) :=
  let c1 := updateConfigPath c newCfg
  match docs newCfg with
  | Except.error msg =>
      some (c1, Except.error
        { Message := msg, ErrorKind := ClashErrorKind.ConfigFormatError })
  | Except.ok root =>
      match changeConfig root net cwd with
      | none => none
      | some (Except.error e) =>
          some (c1, Except.error
            { Message := clashErrorStr e,
              ErrorKind := ClashErrorKind.ConfigFormatError })
      | some (Except.ok _) =>
          if spawnOk then
            let c2 := { c1 with instence := some { killed := false, waited := false } }
            match netRes with
            | Except.ok _ => some (c2, Except.ok ())
            | Except.error msg =>
                some (c2, Except.error
                  { Message := msg, ErrorKind := ClashErrorKind.NetworkError })
          else
            some (c1, Except.error
              { Message := "", ErrorKind := ClashErrorKind.Default })

/-! ## Persistence Loop and startup health check (`ControlRuntime::run`) -/

/-- The user settings, as used by `control.rs`: at least the `enable`
flag. -/
structure SettingsS where
  enable : Bool
  deriving DecidableEq, Repr

/-- The runtime state, as used by `control.rs`: the home directory and the
dirty flag. -/
structure StateS where
  home : String
  dirty : Bool
  deriving DecidableEq, Repr

/-- Rust `settings_path(home)`: `home.join(".config/tomoon/tomoon.json")`. -/
def settingsPath (home : String) : String :=
  pathJoin home ".config/tomoon/tomoon.json"

/-- The startup health check at the top of `ControlRuntime::run`:
if the settings write lock is acquired (`lockOk`), the proxy process is
not observed running (`running = false`) and `enable` is `true`, then set
`enable` to `false` and invoke `helper::reset_system_network()` once (its
own failure is only logged). The second component counts the invocations
of the network-reset capability. -/
def healthCheck (lockOk running : Bool) (s : SettingsS) : SettingsS × Nat :=
  if lockOk then
    if !running && s.enable then ({ enable := false }, 1) else (s, 0)
  else (s, 0)

/-- One iteration of the persistence-loop body in `ControlRuntime::run`.
`lockStateR`, `lockSettingsR`, `lockStateW` model the three lock
acquisitions (a failure logs and abandons the iteration); `saveOk` models
whether `settings_json.save(settings_path(state.home))` succeeds — on
failure the error is only logged and the iteration continues. Returns the
new runtime state and the list of settings-file write attempts (paths)
performed. -/
def persistIter (st : StateS) (s : SettingsS)
    (lockStateR lockSettingsR lockStateW saveOk : Bool) :
    StateS × List String :=
  if lockStateR then
    if st.dirty then
      if lockSettingsR then
        let writes := [settingsPath st.home]
        let _ := (s, saveOk)
        if lockStateW then ({ st with dirty := false }, writes)
        else (st, writes)
      else (st, [])
    else (st, [])
  else (st, [])

/-- The startup health check followed by one iteration of the persistence
loop, threading the settings and runtime state through: the composition a
fresh `ControlRuntime::run` performs before its first sleep. Returns the
final settings, final state, network-reset invocation count, and the
settings-file write attempts. -/
def startupThenIter (lockOk running : Bool) (s : SettingsS) (st : StateS)
    (lockStateR lockSettingsR lockStateW saveOk : Bool) :
    SettingsS × StateS × Nat × List String :=
  match healthCheck lockOk running s with
  | (s', resets) =>
      match persistIter st s' lockStateR lockSettingsR lockStateW saveOk with
      | (st', writes) => (s', st', resets, writes)

/-! ## Association-list lemmas for the mapping operations -/

theorem mapGet_mapInsert_self (d : Doc) (s : String) (v : Value) :
    mapGet (mapInsert d s v) s = some v := by
  induction d with
  | nil => simp [mapGet, mapInsert, keyIs]
  | cons p rest ih =>
      obtain ⟨k, v'⟩ := p
      by_cases h : keyIs k s = true
      · simp [mapGet, mapInsert, h]
      · simp [mapGet, mapInsert, h, ih]

theorem keyIs_true_iff (k : Value) (s : String) :
    keyIs k s = true ↔ k = Value.vStr s := by
  cases k <;> simp [keyIs]

theorem keyIs_of_ne (k : Value) (s s' : String) (hk : keyIs k s = true)
    (h : s' ≠ s) : keyIs k s' = false := by
  rw [keyIs_true_iff] at hk
  subst hk
  simpa [keyIs] using fun hc => h hc.symm

theorem mapGet_mapInsert_ne (d : Doc) (s s' : String) (v : Value)
    (h : s' ≠ s) : mapGet (mapInsert d s v) s' = mapGet d s' := by
  induction d with
  | nil =>
      have : keyIs (Value.vStr s) s' = false := by
        simpa [keyIs] using fun hc => h hc.symm
      simp [mapGet, mapInsert, this]
  | cons p rest ih =>
      obtain ⟨k, v'⟩ := p
      by_cases hk : keyIs k s = true
      · simp [mapGet, mapInsert, hk, keyIs_of_ne k s s' hk h]
      · by_cases hk2 : keyIs k s' = true
        · simp [mapGet, mapInsert, hk, hk2]
        · simp [mapGet, mapInsert, hk, hk2, ih]

theorem mapGet_mapRemove_ne (d : Doc) (s s' : String)
    (h : s' ≠ s) : mapGet (mapRemove d s) s' = mapGet d s' := by
  induction d with
  | nil => simp [mapGet, mapRemove]
  | cons p rest ih =>
      obtain ⟨k, v'⟩ := p
      by_cases hk : keyIs k s = true
      · simp [mapGet, mapRemove, hk, keyIs_of_ne k s s' hk h]
      · by_cases hk2 : keyIs k s' = true
        · simp [mapGet, mapRemove, hk, hk2]
        · simp [mapGet, mapRemove, hk, hk2, ih]

theorem mapGet_setBlock_self (d : Doc) (s : String) (lit : Value) :
    mapGet (setBlock d s lit) s = some lit := by
  unfold setBlock
  cases mapGet d s <;> simp [mapGet_mapInsert_self]

theorem mapGet_setBlock_ne (d : Doc) (s s' : String) (lit : Value)
    (h : s' ≠ s) : mapGet (setBlock d s lit) s' = mapGet d s' := by
  unfold setBlock
  cases mapGet d s <;>
    simp [mapGet_mapInsert_ne _ _ _ _ h, mapGet_mapRemove_ne _ _ _ h]

theorem mapGet_none_iff_countKey (d : Doc) (s : String) :
    mapGet d s = none ↔ countKey d s = 0 := by
  induction d with
  | nil => simp [mapGet, countKey]
  | cons p rest ih =>
      obtain ⟨k, v'⟩ := p
      by_cases hk : keyIs k s = true
      · simp [mapGet, countKey, List.countP_cons, hk]
      · simpa [mapGet, countKey, List.countP_cons, hk] using ih

theorem countKey_mapInsert_ne (d : Doc) (s s' : String) (v : Value)
    (h : s' ≠ s) : countKey (mapInsert d s v) s' = countKey d s' := by
  induction d with
  | nil =>
      have : keyIs (Value.vStr s) s' = false := by
        simpa [keyIs] using fun hc => h hc.symm
      simp [mapInsert, countKey, List.countP_cons, this]
  | cons p rest ih =>
      obtain ⟨k, v'⟩ := p
      by_cases hk : keyIs k s = true
      · simp [mapInsert, countKey, List.countP_cons, hk]
      · have hstep : mapInsert ((k, v') :: rest) s v = (k, v') :: mapInsert rest s v := by
          simp [mapInsert, hk]
        simp only [countKey]
        rw [hstep, List.countP_cons, List.countP_cons]
        simp only [countKey] at ih
        rw [ih]

theorem countKey_mapInsert_present (d : Doc) (s : String) (v : Value)
    (h : (mapGet d s).isSome) : countKey (mapInsert d s v) s = countKey d s := by
  induction d with
  | nil => simp [mapGet] at h
  | cons p rest ih =>
      obtain ⟨k, v'⟩ := p
      by_cases hk : keyIs k s = true
      · simp [mapInsert, countKey, List.countP_cons, hk]
      · have h' : (mapGet rest s).isSome := by simpa [mapGet, hk] using h
        have hstep : mapInsert ((k, v') :: rest) s v = (k, v') :: mapInsert rest s v := by
          simp [mapInsert, hk]
        simp only [countKey]
        rw [hstep, List.countP_cons, List.countP_cons]
        simp only [countKey] at ih
        rw [ih h']

theorem countKey_mapInsert_absent (d : Doc) (s : String) (v : Value)
    (h : mapGet d s = none) : countKey (mapInsert d s v) s = countKey d s + 1 := by
  induction d with
  | nil => simp [mapInsert, countKey, List.countP_cons, keyIs]
  | cons p rest ih =>
      obtain ⟨k, v'⟩ := p
      by_cases hk : keyIs k s = true
      · simp [mapGet, hk] at h
      · have h' : mapGet rest s = none := by simpa [mapGet, hk] using h
        have hstep : mapInsert ((k, v') :: rest) s v = (k, v') :: mapInsert rest s v := by
          simp [mapInsert, hk]
        simp only [countKey]
        rw [hstep, List.countP_cons, List.countP_cons]
        simp only [countKey] at ih
        rw [ih h']
        omega

theorem countKey_mapRemove_self (d : Doc) (s : String) :
    countKey (mapRemove d s) s = countKey d s - 1 := by
  induction d with
  | nil => simp [mapRemove, countKey]
  | cons p rest ih =>
      obtain ⟨k, v'⟩ := p
      by_cases hk : keyIs k s = true
      · simp [mapRemove, countKey, List.countP_cons, hk]
      · simp only [mapRemove, hk, if_false, countKey, List.countP_cons]
        simp only [countKey] at ih
        simp [hk, ih]

theorem countKey_setBlock_self (d : Doc) (s : String) (lit : Value)
    (h : countKey d s ≤ 1) : countKey (setBlock d s lit) s = 1 := by
  unfold setBlock
  cases hm : mapGet d s with
  | none =>
      have h0 : countKey d s = 0 := (mapGet_none_iff_countKey d s).1 hm
      simp [countKey_mapInsert_absent d s lit hm, h0]
  | some v =>
      have h1 : countKey d s ≠ 0 := by
        intro h0
        rw [← mapGet_none_iff_countKey] at h0
        exact absurd (hm ▸ h0) (by simp)
      have hc1 : countKey d s = 1 := by omega
      have hrem : countKey (mapRemove d s) s = 0 := by
        rw [countKey_mapRemove_self, hc1]
      have hnone : mapGet (mapRemove d s) s = none :=
        (mapGet_none_iff_countKey _ s).2 hrem
      simp [countKey_mapInsert_absent _ s lit hnone, hrem]

theorem countKey_mapRemove_ne (d : Doc) (s s' : String)
    (h : s' ≠ s) : countKey (mapRemove d s) s' = countKey d s' := by
  induction d with
  | nil => simp [mapRemove]
  | cons p rest ih =>
      obtain ⟨k, v'⟩ := p
      by_cases hk : keyIs k s = true
      · simp [mapRemove, countKey, List.countP_cons, hk,
          keyIs_of_ne k s s' hk h]
      · have hstep : mapRemove ((k, v') :: rest) s = (k, v') :: mapRemove rest s := by
          simp [mapRemove, hk]
        simp only [countKey]
        rw [hstep, List.countP_cons, List.countP_cons]
        simp only [countKey] at ih
        rw [ih]

theorem countKey_setBlock_ne (d : Doc) (s s' : String) (lit : Value)
    (h : s' ≠ s) : countKey (setBlock d s lit) s' = countKey d s' := by
  unfold setBlock
  cases mapGet d s <;>
    simp [countKey_mapInsert_ne _ _ _ _ h, countKey_mapRemove_ne _ _ _ h]

/-! ## Step lemmas for the Config Transformer -/

theorem mapGet_setController_ne (d : Doc) (s : String)
    (h : s ≠ "external-controller") :
    mapGet (setController d) s = mapGet d s :=
  mapGet_mapInsert_ne d "external-controller" s _ h

theorem countKey_setController_ne (d : Doc) (s : String)
    (h : s ≠ "external-controller") :
    countKey (setController d) s = countKey d s :=
  countKey_mapInsert_ne d "external-controller" s _ h

theorem mapGet_setExternalUi_ne (d : Doc) (cwd : String) (s : String)
    (h : s ≠ "external-ui") :
    mapGet (setExternalUi d cwd) s = mapGet d s :=
  mapGet_mapInsert_ne d "external-ui" s _ h

theorem countKey_setExternalUi_ne (d : Doc) (cwd : String) (s : String)
    (h : s ≠ "external-ui") :
    countKey (setExternalUi d cwd) s = countKey d s :=
  countKey_mapInsert_ne d "external-ui" s _ h

theorem insertBypassRule_of_none (d : Doc) (h : mapGet d "rules" = none) :
    insertBypassRule d = some d := by
  unfold insertBypassRule
  rw [h]

theorem insertBypassRule_of_seq (d : Doc) (l : List Value)
    (h : mapGet d "rules" = some (Value.vSeq l)) :
    insertBypassRule d =
      some (mapInsert d "rules" (Value.vSeq (bypassRule :: l))) := by
  unfold insertBypassRule
  rw [h]

theorem insertBypassRule_preserves (d d' : Doc) (s : String)
    (h : insertBypassRule d = some d') (hs : s ≠ "rules") :
    mapGet d' s = mapGet d s ∧ countKey d' s = countKey d s := by
  unfold insertBypassRule at h
  cases hm : mapGet d "rules" with
  | none =>
      rw [hm] at h
      cases h
      exact ⟨rfl, rfl⟩
  | some v =>
      rw [hm] at h
      cases v <;> simp at h
      rw [← h]
      exact ⟨mapGet_mapInsert_ne d "rules" s _ hs,
        countKey_mapInsert_ne d "rules" s _ hs⟩

theorem insertBypassRule_rules_shape (d d' : Doc)
    (h : insertBypassRule d = some d') :
    mapGet d' "rules" = none ∨ ∃ l, mapGet d' "rules" = some (Value.vSeq l) := by
  unfold insertBypassRule at h
  cases hm : mapGet d "rules" with
  | none =>
      rw [hm] at h
      cases h
      exact Or.inl hm
  | some v =>
      rw [hm] at h
      cases v <;> simp at h
      rw [← h]
      exact Or.inr ⟨_, mapGet_mapInsert_self d "rules" _⟩

theorem runProviders_congr (d d' : Doc) (net : String → NetOutcome)
    (h : mapGet d' "rule-providers" = mapGet d "rule-providers") :
    runProviders d' net = runProviders d net := by
  unfold runProviders
  rw [h]

theorem mapGet_finishDoc_tun (d : Doc) (cwd : String) :
    mapGet (finishDoc d cwd) "tun" = some tunLit := by
  unfold finishDoc
  rw [mapGet_setBlock_ne _ _ _ _ (by decide), mapGet_setBlock_ne _ _ _ _ (by decide),
    mapGet_setBlock_self]

theorem mapGet_finishDoc_dns (d : Doc) (cwd : String) :
    mapGet (finishDoc d cwd) "dns" = some dnsLit := by
  unfold finishDoc
  rw [mapGet_setBlock_ne _ _ _ _ (by decide), mapGet_setBlock_self]

theorem mapGet_finishDoc_profile (d : Doc) (cwd : String) :
    mapGet (finishDoc d cwd) "profile" = some profileLit := by
  unfold finishDoc
  rw [mapGet_setBlock_self]

theorem mapGet_finishDoc_ne (d : Doc) (cwd : String) (s : String)
    (h1 : s ≠ "external-ui") (h2 : s ≠ "tun") (h3 : s ≠ "dns")
    (h4 : s ≠ "profile") :
    mapGet (finishDoc d cwd) s = mapGet d s := by
  unfold finishDoc
  rw [mapGet_setBlock_ne _ _ _ _ h4, mapGet_setBlock_ne _ _ _ _ h3,
    mapGet_setBlock_ne _ _ _ _ h2, mapGet_setExternalUi_ne _ _ _ h1]

theorem countKey_finishDoc_tun (d : Doc) (cwd : String)
    (h : countKey d "tun" ≤ 1) :
    countKey (finishDoc d cwd) "tun" = 1 := by
  unfold finishDoc
  rw [countKey_setBlock_ne _ _ _ _ (by decide),
    countKey_setBlock_ne _ _ _ _ (by decide)]
  exact countKey_setBlock_self _ _ _
    (by rw [countKey_setExternalUi_ne _ _ _ (by decide)]; exact h)

theorem countKey_finishDoc_dns (d : Doc) (cwd : String)
    (h : countKey d "dns" ≤ 1) :
    countKey (finishDoc d cwd) "dns" = 1 := by
  unfold finishDoc
  rw [countKey_setBlock_ne _ _ _ _ (by decide)]
  exact countKey_setBlock_self _ _ _
    (by rw [countKey_setBlock_ne _ _ _ _ (by decide),
          countKey_setExternalUi_ne _ _ _ (by decide)]; exact h)

theorem countKey_finishDoc_profile (d : Doc) (cwd : String)
    (h : countKey d "profile" ≤ 1) :
    countKey (finishDoc d cwd) "profile" = 1 := by
  unfold finishDoc
  exact countKey_setBlock_self _ _ _
    (by rw [countKey_setBlock_ne _ _ _ _ (by decide),
          countKey_setBlock_ne _ _ _ _ (by decide),
          countKey_setExternalUi_ne _ _ _ (by decide)]; exact h)

theorem changeConfig_ok_inv (d0 : Doc) (net : String → NetOutcome)
    (cwd : String) (out : Doc)
    (h : changeConfig (Value.vMap d0) net cwd = some (Except.ok out)) :
    ∃ d2, insertBypassRule (setController d0) = some d2 ∧
      runProviders d2 net = some (Except.ok ()) ∧ out = finishDoc d2 cwd := by
  cases hb : insertBypassRule (setController d0) with
  | none => simp [changeConfig, hb] at h
  | some d2 =>
      cases hr : runProviders d2 net with
      | none => simp [changeConfig, hb, hr] at h
      | some r =>
          cases r with
          | error e => simp [changeConfig, hb, hr] at h
          | ok u =>
              cases u
              simp [changeConfig, hb, hr] at h
              exact ⟨d2, rfl, hr, h.symm⟩

theorem changeConfig_ok_build (d0 d2 : Doc) (net : String → NetOutcome)
    (cwd : String)
    (hb : insertBypassRule (setController d0) = some d2)
    (hr : runProviders d2 net = some (Except.ok ())) :
    changeConfig (Value.vMap d0) net cwd = some (Except.ok (finishDoc d2 cwd)) := by
  simp [changeConfig, hb, hr]

/-! ## Claim theorems -/

/-- C1: for every well-formed base configuration document (a mapping whose
keys are not duplicated), if `change_config` succeeds then applying it a
second time to its own output succeeds and yields `tun`, `dns` and
`profile` blocks identical to those of the first output — the literal
recommended blocks — with each of those three keys occurring exactly once
(no duplication, no merging of old and new fields). -/
theorem changeConfig_idempotent_blocks
    (d0 : Doc) (net : String → NetOutcome) (cwd : String) (out1 : Doc)
    (htun : countKey d0 "tun" ≤ 1) (hdns : countKey d0 "dns" ≤ 1)
    (hprof : countKey d0 "profile" ≤ 1)
    (h1 : changeConfig (Value.vMap d0) net cwd = some (Except.ok out1)) :
    ∃ out2,
      changeConfig (Value.vMap out1) net cwd = some (Except.ok out2) ∧
      mapGet out2 "tun" = mapGet out1 "tun" ∧
      mapGet out2 "dns" = mapGet out1 "dns" ∧
      mapGet out2 "profile" = mapGet out1 "profile" ∧
      mapGet out1 "tun" = some tunLit ∧
      mapGet out1 "dns" = some dnsLit ∧
      mapGet out1 "profile" = some profileLit ∧
      countKey out2 "tun" = 1 ∧ countKey out2 "dns" = 1 ∧
      countKey out2 "profile" = 1 := by
  obtain ⟨d2, hb, hr, hout⟩ := changeConfig_ok_inv d0 net cwd out1 h1
  subst hout
  have pres := fun s hs => insertBypassRule_preserves (setController d0) d2 s hb hs
  have hc2tun : countKey d2 "tun" ≤ 1 := by
    rw [(pres "tun" (by decide)).2, countKey_setController_ne d0 "tun" (by decide)]
    exact htun
  have hc2dns : countKey d2 "dns" ≤ 1 := by
    rw [(pres "dns" (by decide)).2, countKey_setController_ne d0 "dns" (by decide)]
    exact hdns
  have hc2prof : countKey d2 "profile" ≤ 1 := by
    rw [(pres "profile" (by decide)).2,
      countKey_setController_ne d0 "profile" (by decide)]
    exact hprof
  have g1tun := mapGet_finishDoc_tun d2 cwd
  have g1dns := mapGet_finishDoc_dns d2 cwd
  have g1prof := mapGet_finishDoc_profile d2 cwd
  have c1tun := countKey_finishDoc_tun d2 cwd hc2tun
  have c1dns := countKey_finishDoc_dns d2 cwd hc2dns
  have c1prof := countKey_finishDoc_profile d2 cwd hc2prof
  have g1rules : mapGet (finishDoc d2 cwd) "rules" = mapGet d2 "rules" :=
    mapGet_finishDoc_ne d2 cwd "rules" (by decide) (by decide) (by decide)
      (by decide)
  have g1rp : mapGet (finishDoc d2 cwd) "rule-providers" =
      mapGet d2 "rule-providers" :=
    mapGet_finishDoc_ne d2 cwd "rule-providers" (by decide) (by decide)
      (by decide) (by decide)
  have e1rules : mapGet (setController (finishDoc d2 cwd)) "rules" =
      mapGet d2 "rules" := by
    rw [mapGet_setController_ne _ "rules" (by decide), g1rules]
  obtain ⟨e2, he2⟩ :
      ∃ e2, insertBypassRule (setController (finishDoc d2 cwd)) = some e2 := by
    rcases insertBypassRule_rules_shape (setController d0) d2 hb with hsh | ⟨l, hsh⟩
    · exact ⟨_, insertBypassRule_of_none _ (by rw [e1rules, hsh])⟩
    · exact ⟨_, insertBypassRule_of_seq _ l (by rw [e1rules, hsh])⟩
  have prese2 := fun s hs =>
    insertBypassRule_preserves (setController (finishDoc d2 cwd)) e2 s he2 hs
  have e2rp : mapGet e2 "rule-providers" = mapGet d2 "rule-providers" := by
    rw [(prese2 "rule-providers" (by decide)).1,
      mapGet_setController_ne _ _ (by decide), g1rp]
  have hr2 : runProviders e2 net = some (Except.ok ()) := by
    rw [runProviders_congr d2 e2 net e2rp]
    exact hr
  have h2 := changeConfig_ok_build (finishDoc d2 cwd) e2 net cwd he2 hr2
  have ce2tun : countKey e2 "tun" = 1 := by
    rw [(prese2 "tun" (by decide)).2, countKey_setController_ne _ _ (by decide)]
    exact c1tun
  have ce2dns : countKey e2 "dns" = 1 := by
    rw [(prese2 "dns" (by decide)).2, countKey_setController_ne _ _ (by decide)]
    exact c1dns
  have ce2prof : countKey e2 "profile" = 1 := by
    rw [(prese2 "profile" (by decide)).2,
      countKey_setController_ne _ _ (by decide)]
    exact c1prof
  refine ⟨finishDoc e2 cwd, h2, ?_, ?_, ?_, g1tun, g1dns, g1prof,
    countKey_finishDoc_tun e2 cwd (le_of_eq ce2tun),
    countKey_finishDoc_dns e2 cwd (le_of_eq ce2dns),
    countKey_finishDoc_profile e2 cwd (le_of_eq ce2prof)⟩
  · rw [mapGet_finishDoc_tun e2 cwd, g1tun]
  · rw [mapGet_finishDoc_dns e2 cwd, g1dns]
  · rw [mapGet_finishDoc_profile e2 cwd, g1prof]

/-- A network oracle on which every fetch succeeds with an empty body. -/
def trivialNet : String → NetOutcome := fun _ => NetOutcome.success ""

/-- The transformer's output on the empty base mapping, with working
directory `/r` (a fully concrete run, checked by `rfl` below). -/
def emptyBaseOut : Doc :=
  [(Value.vStr "external-controller", Value.vStr "127.0.0.1:9090"),
   (Value.vStr "external-ui", Value.vStr "/r/bin/core/web"),
   (Value.vStr "tun", tunLit),
   (Value.vStr "dns", dnsLit),
   (Value.vStr "profile", profileLit)]

/-- The transformer's output on a base document whose `rules` list already
contains the bypass rule, with working directory `/r`. -/
def rulesBaseOut : Doc :=
  [(Value.vStr "rules", Value.vSeq [bypassRule, bypassRule]),
   (Value.vStr "external-controller", Value.vStr "127.0.0.1:9090"),
   (Value.vStr "external-ui", Value.vStr "/r/bin/core/web"),
   (Value.vStr "tun", tunLit),
   (Value.vStr "dns", dnsLit),
   (Value.vStr "profile", profileLit)]

/-- Witness for C1: the idempotence theorem applied to the empty base
mapping, whose first transform is the concrete `emptyBaseOut`. -/
theorem changeConfig_idempotent_blocks_witness :
    (countKey ([] : Doc) "tun" ≤ 1 ∧
      changeConfig (Value.vMap []) trivialNet "/r" =
        some (Except.ok emptyBaseOut)) ∧
    (∃ out2,
      changeConfig (Value.vMap emptyBaseOut) trivialNet "/r" =
        some (Except.ok out2) ∧
      mapGet out2 "tun" = mapGet emptyBaseOut "tun" ∧
      mapGet out2 "dns" = mapGet emptyBaseOut "dns" ∧
      mapGet out2 "profile" = mapGet emptyBaseOut "profile" ∧
      mapGet emptyBaseOut "tun" = some tunLit ∧
      mapGet emptyBaseOut "dns" = some dnsLit ∧
      mapGet emptyBaseOut "profile" = some profileLit ∧
      countKey out2 "tun" = 1 ∧ countKey out2 "dns" = 1 ∧
      countKey out2 "profile" = 1) :=
  ⟨⟨Nat.zero_le 1, rfl⟩,
    changeConfig_idempotent_blocks [] trivialNet "/r" emptyBaseOut
      (Nat.zero_le 1) (Nat.zero_le 1) (Nat.zero_le 1) rfl⟩

/-- C3 counterexample: on a base document with no `rules` list (valid and
well-formed), the transformed output has no `rules` list either — in
particular its rules list does not have the bypass rule as first element,
contradicting the claim's "regardless of the rules list's absence". -/
theorem changeConfig_rules_absent_counterexample :
    changeConfig (Value.vMap []) trivialNet "/r" =
      some (Except.ok emptyBaseOut) ∧
    mapGet emptyBaseOut "rules" = none :=
  ⟨rfl, rfl⟩

/-- C3 (amended): when the input document has a `rules` list, the
transformed output's rules list is the input list with the literal rule
"DOMAIN,test.steampowered.com,DIRECT" inserted as its first element —
regardless of whether, or at what position, that rule already appears;
when the input has no `rules` list, the output has none (the transformer
does not create one). -/
theorem changeConfig_rules_head
    (d0 : Doc) (net : String → NetOutcome) (cwd : String) (out : Doc)
    (h1 : changeConfig (Value.vMap d0) net cwd = some (Except.ok out)) :
    (∀ l, mapGet d0 "rules" = some (Value.vSeq l) →
        mapGet out "rules" = some (Value.vSeq (bypassRule :: l))) ∧
    (mapGet d0 "rules" = none → mapGet out "rules" = none) := by
  obtain ⟨d2, hb, hr, hout⟩ := changeConfig_ok_inv d0 net cwd out h1
  subst hout
  have g := mapGet_finishDoc_ne d2 cwd "rules" (by decide) (by decide)
    (by decide) (by decide)
  constructor
  · intro l hl
    have h0 : mapGet (setController d0) "rules" = some (Value.vSeq l) := by
      rw [mapGet_setController_ne d0 "rules" (by decide)]
      exact hl
    have he : d2 =
        mapInsert (setController d0) "rules" (Value.vSeq (bypassRule :: l)) :=
      (Option.some.inj ((insertBypassRule_of_seq _ l h0).symm.trans hb)).symm
    rw [g, he, mapGet_mapInsert_self]
  · intro hl
    have h0 : mapGet (setController d0) "rules" = none := by
      rw [mapGet_setController_ne d0 "rules" (by decide)]
      exact hl
    have he : d2 = setController d0 :=
      (Option.some.inj ((insertBypassRule_of_none _ h0).symm.trans hb)).symm
    rw [g, he, h0]

/-- Witness for the amended C3: a base document whose `rules` list already
contains the bypass rule still gets a fresh copy inserted at index 0. -/
theorem changeConfig_rules_head_witness :
    mapGet rulesBaseOut "rules" =
      some (Value.vSeq (bypassRule :: [bypassRule])) :=
  (changeConfig_rules_head [(Value.vStr "rules", Value.vSeq [bypassRule])]
      trivialNet "/r" rulesBaseOut rfl).1 [bypassRule] rfl

/-- Every error the Rule-Provider Downloader returns carries the
`RuleProviderDownloadError` kind. -/
theorem downloadProviders_error_kind (entries : Doc)
    (net : String → NetOutcome) (e : ClashError)
    (h : downloadProviders entries net = some (Except.error e)) :
    e.ErrorKind = ClashErrorKind.RuleProviderDownloadError := by
  induction entries with
  | nil => simp [downloadProviders] at h
  | cons p rest ih =>
      obtain ⟨k, v⟩ := p
      unfold downloadProviders at h
      repeat' split at h
      all_goals try exact ih h
      all_goals try simp_all
      all_goals rw [← h]

/-- C4: if the `rule-providers` mapping is reached and the downloader run
over it fails, `change_config` returns that error — whose kind is
`RuleProviderDownloadError` — and the running-config file is not
written. -/
theorem changeConfig_provider_failure
    (d0 : Doc) (net : String → NetOutcome) (cwd : String) (m : Doc)
    (e : ClashError) (d2 : Doc)
    (hb : insertBypassRule (setController d0) = some d2)
    (hp : mapGet d0 "rule-providers" = some (Value.vMap m))
    (hd : downloadProviders m net = some (Except.error e)) :
    changeConfig (Value.vMap d0) net cwd = some (Except.error e) ∧
    e.ErrorKind = ClashErrorKind.RuleProviderDownloadError ∧
    writtenConfig (changeConfig (Value.vMap d0) net cwd) = none := by
  have hp2 : mapGet d2 "rule-providers" = some (Value.vMap m) := by
    rw [(insertBypassRule_preserves _ _ _ hb (by decide)).1,
      mapGet_setController_ne _ _ (by decide)]
    exact hp
  have hrp : runProviders d2 net = some (Except.error e) := by
    simp [runProviders, hp2, hd]
  have hcc : changeConfig (Value.vMap d0) net cwd = some (Except.error e) := by
    simp [changeConfig, hb, hrp]
  exact ⟨hcc, downloadProviders_error_kind m net e hd, by rw [hcc]; rfl⟩

/-- A base document with one rule-provider entry, as in the spec's
scenario. -/
def providerBase : Doc :=
  [(Value.vStr "rule-providers",
    Value.vMap
      [(Value.vStr "a",
        Value.vMap
          [(Value.vStr "url", Value.vStr "http://example/a.yaml"),
           (Value.vStr "path", Value.vStr "./x/a.yaml")])])]

/-- A network on which every fetch fails at transport level. -/
def failingNet : String → NetOutcome := fun _ => NetOutcome.transportFail "timeout"

/-- Witness for C4: the spec's scenario — one provider entry and a network
failure — yields a `RuleProviderDownloadError` and no running-config
write. -/
theorem changeConfig_provider_failure_witness :
    changeConfig (Value.vMap providerBase) failingNet "/r" =
      some (Except.error
        { Message :=
            "Error occurred while downloading Rule Provder with error message : timeout",
          ErrorKind := ClashErrorKind.RuleProviderDownloadError }) ∧
    ({ Message :=
        "Error occurred while downloading Rule Provder with error message : timeout",
       ErrorKind := ClashErrorKind.RuleProviderDownloadError : ClashError }).ErrorKind =
      ClashErrorKind.RuleProviderDownloadError ∧
    writtenConfig (changeConfig (Value.vMap providerBase) failingNet "/r") = none :=
  changeConfig_provider_failure providerBase failingNet "/r"
    [(Value.vStr "a",
      Value.vMap
        [(Value.vStr "url", Value.vStr "http://example/a.yaml"),
         (Value.vStr "path", Value.vStr "./x/a.yaml")])]
    { Message :=
        "Error occurred while downloading Rule Provder with error message : timeout",
      ErrorKind := ClashErrorKind.RuleProviderDownloadError }
    (setController providerBase) rfl rfl rfl

/-- Does a rule-provider entry avoid the downloader's `unwrap` panics for
every network behavior: whenever both `url` and `path` are present, both
are strings. -/
def providerEntryOk (v : Value) : Bool :=
  match vGet v "url", vGet v "path" with
  | some u, some p => u.asStr.isSome && p.asStr.isSome
  | _, _ => true

/-- Does the `rules` field, when present, have the sequence shape
`as_sequence_mut().unwrap()` requires? -/
def rulesShapeOk (d : Doc) : Bool :=
  match mapGet d "rules" with
  | none => true
  | some (Value.vSeq _) => true
  | some _ => false

/-- Does the `rule-providers` field, when present, have the mapping shape
`as_mapping().unwrap()` requires, with panic-free entries? -/
def providersShapeOk (d : Doc) : Bool :=
  match mapGet d "rule-providers" with
  | none => true
  | some (Value.vMap m) => m.all (fun p => providerEntryOk p.2)
  | some _ => false

/-- The shape conditions under which `change_config` cannot panic: the
document root is a mapping (`as_mapping_mut().unwrap()`), its `rules` and
`rule-providers` fields are well-shaped. -/
def wellShaped (root : Value) : Bool :=
  match root with
  | Value.vMap d => rulesShapeOk d && providersShapeOk d
  | _ => false

/-- The downloader never panics on a provider mapping whose entries are
panic-free, for every network behavior. -/
theorem downloadProviders_total (m : Doc) (net : String → NetOutcome)
    (h : m.all (fun p => providerEntryOk p.2) = true) :
    (downloadProviders m net).isSome = true := by
  induction m with
  | nil => simp [downloadProviders]
  | cons p rest ih =>
      obtain ⟨k, v⟩ := p
      rw [List.all_cons, Bool.and_eq_true] at h
      have hrest := ih h.2
      have hv := h.1
      unfold downloadProviders
      cases hu : vGet v "url" with
      | none => simp only []; exact hrest
      | some u =>
          cases hp : vGet v "path" with
          | none => simp only []; exact hrest
          | some q =>
              simp only [providerEntryOk, hu, hp, Bool.and_eq_true,
                Option.isSome_iff_exists] at hv
              obtain ⟨⟨us, hus⟩, qs, hqs⟩ := hv
              simp only [hus, hqs]
              cases net us with
              | transportFail msg => simp
              | decodeFail => simp
              | success body =>
                  cases hrest' : downloadProviders rest net with
                  | none => rw [hrest'] at hrest; simp at hrest
                  | some r => cases r <;> simp

/-- C5 (amended): `change_config` is a function of its input document (and
of the network and working directory), hence deterministic, and it never
panics on any document satisfying `wellShaped`: the root parses as a YAML
mapping, the `rules` field (if present) is a sequence, and every
`rule-providers` entry carrying both `url` and `path` has string values
for them. (On other valid YAML inputs it can panic — see the
counterexample.) -/
theorem changeConfig_total (root : Value) (net : String → NetOutcome)
    (cwd : String) (h : wellShaped root = true) :
    (changeConfig root net cwd).isSome = true := by
  cases root with
  | vStr s => simp [wellShaped] at h
  | vBool b => simp [wellShaped] at h
  | vSeq l => simp [wellShaped] at h
  | vMap d =>
      rw [wellShaped, Bool.and_eq_true] at h
      obtain ⟨hrules, hprov⟩ := h
      have hrules1 : rulesShapeOk (setController d) = true := by
        rw [rulesShapeOk, mapGet_setController_ne d "rules" (by decide)]
        exact hrules
      obtain ⟨d2, hb⟩ : ∃ d2, insertBypassRule (setController d) = some d2 := by
        rw [rulesShapeOk] at hrules1
        cases hm : mapGet (setController d) "rules" with
        | none => exact ⟨_, insertBypassRule_of_none _ hm⟩
        | some v =>
            rw [hm] at hrules1
            cases v <;> simp at hrules1
            exact ⟨_, insertBypassRule_of_seq _ _ hm⟩
      have hprov2 : providersShapeOk d2 = true := by
        rw [providersShapeOk,
          (insertBypassRule_preserves _ _ "rule-providers" hb (by decide)).1,
          mapGet_setController_ne d "rule-providers" (by decide)]
        rw [providersShapeOk] at hprov
        exact hprov
      obtain ⟨r, hr⟩ : ∃ r, runProviders d2 net = some r := by
        rw [providersShapeOk] at hprov2
        unfold runProviders
        cases hm : mapGet d2 "rule-providers" with
        | none => exact ⟨_, rfl⟩
        | some v =>
            rw [hm] at hprov2
            cases v with
            | vStr s => simp at hprov2
            | vBool b => simp at hprov2
            | vSeq l => simp at hprov2
            | vMap m =>
                have := downloadProviders_total m net hprov2
                cases hdl : downloadProviders m net with
                | none => rw [hdl] at this; simp at this
                | some r' =>
                    cases r' with
                    | ok w => exact ⟨Except.ok (), by simp [hdl]⟩
                    | error e => exact ⟨Except.error e, by simp [hdl]⟩
      cases r with
      | error e => simp [changeConfig, hb, hr]
      | ok u =>
          cases u
          simp [changeConfig, hb, hr]

/-- C5 counterexample: the document `[]` (an empty YAML sequence) parses
as valid YAML, yet `change_config` panics on it
(`as_mapping_mut().unwrap()` on a non-mapping root) instead of returning a
`Result`. -/
theorem changeConfig_nonmapping_panics :
    changeConfig (Value.vSeq []) trivialNet "/r" = none := rfl

/-- Witness for the amended C5: the empty mapping is well-shaped and the
transformer does not panic on it. -/
theorem changeConfig_total_witness :
    wellShaped (Value.vMap []) = true ∧
    (changeConfig (Value.vMap []) trivialNet "/r").isSome = true :=
  ⟨rfl, changeConfig_total (Value.vMap []) trivialNet "/r" rfl⟩

/-- C8 counterexample: an absolute provider path is not resolved under the
providers root — `PathBuf::join` replaces the base entirely — so the save
location escapes `/root/.config/clash/`, contradicting the claim for
paths without the `./` prefix. -/
theorem providerSavePath_absolute_counterexample :
    providerSavePath "/tmp/a.yaml" = "/tmp/a.yaml" ∧
    providerSavePath "/tmp/a.yaml" ≠
      "/root/.config/clash/" ++ stripDotSlash "/tmp/a.yaml" :=
  ⟨rfl, by decide⟩

/-- C8 (amended): the save location strips exactly one leading `./` from
the provider path; a relative result is joined under the fixed providers
root, while an absolute result replaces the root entirely (the
`PathBuf::join` semantics). -/
theorem providerSavePath_join (p : String) :
    (strStarts (stripDotSlash p) "/" = false →
      providerSavePath p = "/root/.config/clash/" ++ stripDotSlash p) ∧
    (strStarts (stripDotSlash p) "/" = true →
      providerSavePath p = stripDotSlash p) := by
  have hends : strEnds "/root/.config/clash/" "/" = true := rfl
  constructor
  · intro h
    simp [providerSavePath, pathJoin, h, hends]
  · intro h
    simp [providerSavePath, pathJoin, h]

/-- Witness for the amended C8: `./sub/rule.yaml` resolves to
`/root/.config/clash/sub/rule.yaml`. -/
theorem providerSavePath_join_witness :
    strStarts (stripDotSlash "./sub/rule.yaml") "/" = false ∧
    providerSavePath "./sub/rule.yaml" =
      "/root/.config/clash/" ++ stripDotSlash "./sub/rule.yaml" ∧
    providerSavePath "./sub/rule.yaml" = "/root/.config/clash/sub/rule.yaml" :=
  ⟨rfl, (providerSavePath_join "./sub/rule.yaml").1 rfl, rfl⟩

/-- C6 counterexample: `stop` on a supervisor holding a live handle leaves
the `instence` slot occupied — the handle is never removed, contradicting
"the process_handle slot is empty". -/
theorem clashStop_keeps_handle_counterexample :
    (clashStop
        { path := "/bin/clash", config := "/cfg",
          instence := some { killed := false, waited := false } }).1.instence ≠
      none := by decide

/-- C6 (amended): for every supervisor state holding a handle, `stop`
kills the process, waits for its exit and performs the DNS restore
commands, but the `instence` slot still holds the (now terminated)
handle — it is never set back to `None`. -/
theorem clashStop_terminates_but_keeps_handle (c : ClashS) (h : Child)
    (hh : c.instence = some h) :
    (clashStop c).1.instence = some { killed := true, waited := true } ∧
    (clashStop c).2 =
      ["chattr -i /etc/resolv.conf", "copy ./resolv.conf.bk /etc/resolv.conf"] := by
  simp [clashStop, hh]

/-- Witness for the amended C6 at a concrete supervisor state. -/
theorem clashStop_terminates_but_keeps_handle_witness :
    (clashStop
        { path := "/bin/clash", config := "/cfg",
          instence := some { killed := false, waited := false } }).1.instence =
      some { killed := true, waited := true } ∧
    (clashStop
        { path := "/bin/clash", config := "/cfg",
          instence := some { killed := false, waited := false } }).2 =
      ["chattr -i /etc/resolv.conf", "copy ./resolv.conf.bk /etc/resolv.conf"] :=
  clashStop_terminates_but_keeps_handle
    { path := "/bin/clash", config := "/cfg",
      instence := some { killed := false, waited := false } }
    { killed := false, waited := false } rfl

/-- C9: `Clash::run` stores the new config path before invoking the Config
Transformer, so whenever it returns an error — read/parse failure wrapped
as `ConfigFormatError`, spawn failure, or network-apply failure — the
stored config path has already been replaced: `run` is not atomic on
failure. -/
theorem clashRun_error_config_updated
    (c : ClashS) (newCfg : String) (docs : String → Except String Value)
    (net : String → NetOutcome) (cwd : String) (spawnOk : Bool)
    (netRes : Except String Unit) (c' : ClashS) (e : ClashError)
    (h : clashRun c newCfg docs net cwd spawnOk netRes =
      some (c', Except.error e)) :
    c'.config = newCfg := by
  unfold clashRun at h
  repeat' split at h
  all_goals simp_all [updateConfigPath]
  all_goals rw [← h.1]

/-- Witness for C9: a run whose config file fails to read returns a
`ConfigFormatError`, yet the stored path is already the new one. -/
theorem clashRun_error_config_updated_witness :
    clashRun { path := "/bin/clash", config := "/old.yaml", instence := none }
        "/new.yaml" (fun _ => Except.error "read failed") trivialNet "/r" true
        (Except.ok ()) =
      some
        ({ path := "/bin/clash", config := "/new.yaml", instence := none },
          Except.error
            { Message := "read failed",
              ErrorKind := ClashErrorKind.ConfigFormatError }) ∧
    ({ path := "/bin/clash", config := "/new.yaml", instence := none } :
        ClashS).config = "/new.yaml" :=
  ⟨rfl,
    clashRun_error_config_updated
      { path := "/bin/clash", config := "/old.yaml", instence := none }
      "/new.yaml" (fun _ => Except.error "read failed") trivialNet "/r" true
      (Except.ok ())
      { path := "/bin/clash", config := "/new.yaml", instence := none }
      { Message := "read failed", ErrorKind := ClashErrorKind.ConfigFormatError }
      rfl⟩

/-- C2 counterexample: an iteration that observes `dirty = true` and whose
settings-file write fails (`saveOk = false`) still ends with
`dirty = false` — the write error is only logged, so "the dirty flag
remains true" is false on the code. -/
theorem persistIter_failed_write_counterexample :
    (persistIter { home := "/home/deck", dirty := true } { enable := true }
        true true true false).1.dirty = false := rfl

/-- C2 (amended): every iteration that observes `dirty = true` and
acquires the state-read, settings-read and state-write locks makes exactly
one settings-file write attempt and clears the dirty flag regardless of
whether that write succeeded; a failed write is only logged, leaving the
settings unpersisted with `dirty = false`. -/
theorem persistIter_always_clears_dirty
    (st : StateS) (s : SettingsS) (saveOk : Bool) (h : st.dirty = true) :
    (persistIter st s true true true saveOk).1.dirty = false ∧
    (persistIter st s true true true saveOk).2 = [settingsPath st.home] := by
  simp [persistIter, h]

/-- Witness for the amended C2 at a concrete state with a failing write. -/
theorem persistIter_always_clears_dirty_witness :
    (persistIter { home := "/home/deck", dirty := true } { enable := true }
        true true true false).1.dirty = false ∧
    (persistIter { home := "/home/deck", dirty := true } { enable := true }
        true true true false).2 = [settingsPath "/home/deck"] :=
  persistIter_always_clears_dirty { home := "/home/deck", dirty := true }
    { enable := true } false rfl

/-- C7: with the settings write lock acquired, if `enable` is true and the
process-running probe returns false, the startup health check sets
`enable` to false and invokes the network-reset capability exactly once;
in every other case (enable false, or probe true) the settings are
unchanged and no reset is invoked. -/
theorem healthCheck_spec (running : Bool) (s : SettingsS) :
    (s.enable = true → running = false →
      healthCheck true running s = ({ enable := false }, 1)) ∧
    (s.enable = false ∨ running = true →
      healthCheck true running s = (s, 0)) := by
  constructor
  · intro h1 h2
    simp [healthCheck, h1, h2]
  · intro h
    rcases h with h | h <;> simp [healthCheck, h]

/-- Witness for C7: enable true and probe false at concrete inputs. -/
theorem healthCheck_spec_witness :
    healthCheck true false { enable := true } = ({ enable := false }, 1) :=
  (healthCheck_spec false { enable := true }).1 rfl rfl

/-- C10: when the startup health check fires (probe false, `enable`
true), it flips `enable` in memory but leaves the runtime state —
including the dirty flag — untouched and performs no settings-file write;
the following persistence-loop iteration, observing `dirty = false`,
attempts no write either, so the on-disk settings file is unchanged by the
recovery and its persisted `enable` can remain true. -/
theorem startup_recovery_no_persist
    (running : Bool) (s : SettingsS) (st : StateS)
    (lockStateR lockSettingsR lockStateW saveOk : Bool)
    (hen : s.enable = true) (hrun : running = false)
    (hdirty : st.dirty = false) :
    startupThenIter true running s st lockStateR lockSettingsR lockStateW
        saveOk =
      ({ enable := false }, st, 1, []) := by
  simp [startupThenIter, healthCheck, persistIter, hen, hrun, hdirty]

/-- Witness for C10 at concrete inputs. -/
theorem startup_recovery_no_persist_witness :
    startupThenIter true false { enable := true }
        { home := "/home/deck", dirty := false } true true true true =
      ({ enable := false }, { home := "/home/deck", dirty := false }, 1, []) :=
  startup_recovery_no_persist false { enable := true }
    { home := "/home/deck", dirty := false } true true true true rfl rfl rfl

end ToMoon
